import Mathlib

/-!
Shallow embedding of the crypto-native bridge
(src/packages/server/src/crypto-native/src/lib.rs) and of the vetted
primitives it delegates to (SHA-2, HMAC, HKDF, PBKDF2, AES-256-GCM,
X25519, Ed25519), together with theorems settling the spec claims.

Byte buffers are `List Nat` (each element a byte value).  All recursion is
structural (fuel-based where needed) so every definition reduces in the
kernel.
-/

set_option maxRecDepth 8000

/-- Truncate to a 32-bit word. -/
def w32 (n : Nat) : Nat := n % 4294967296

/-- Truncate to a 64-bit word. -/
def w64 (n : Nat) : Nat := n % 18446744073709551616

/-- Right-rotate a 32-bit word by `n` places. -/
def rotr32 (x n : Nat) : Nat := w32 ((x >>> n) ||| (x <<< (32 - n)))

/-- Right-rotate a 64-bit word by `n` places. -/
def rotr64 (x n : Nat) : Nat := w64 ((x >>> n) ||| (x <<< (64 - n)))

/-- Big-endian 4-byte serialisation of a 32-bit word. -/
def be32 (x : Nat) : List Nat :=
  [(x >>> 24) % 256, (x >>> 16) % 256, (x >>> 8) % 256, x % 256]

/-- Big-endian 8-byte serialisation of a 64-bit word. -/
def be64 (x : Nat) : List Nat :=
  [(x >>> 56) % 256, (x >>> 48) % 256, (x >>> 40) % 256, (x >>> 32) % 256,
   (x >>> 24) % 256, (x >>> 16) % 256, (x >>> 8) % 256, x % 256]

/-- Interpret a byte list as a big-endian natural number. -/
def beNat (l : List Nat) : Nat := l.foldl (fun acc b => 256 * acc + b) 0

/-- Little-endian serialisation of a natural number into `k` bytes. -/
def leBytes : Nat → Nat → List Nat
  | 0, _ => []
  | k+1, n => n % 256 :: leBytes k (n / 256)

/-- Interpret a byte list as a little-endian natural number. -/
def leNat (l : List Nat) : Nat := l.foldr (fun b acc => b + 256 * acc) 0

/-- Split a list into chunks of `k` bytes (fuel-based so it reduces). -/
def chunksGo (k : Nat) : Nat → List Nat → List (List Nat)
  | 0, _ => []
  | _, [] => []
  | f+1, x :: rest => (x :: rest).take k :: chunksGo k f ((x :: rest).drop k)

/-- Split a list into chunks of `k` bytes. -/
def chunks (k : Nat) (l : List Nat) : List (List Nat) := chunksGo k l.length l

/-- Little-endian bit list of a natural number, `k` bits. -/
def bitsLE : Nat → Nat → List Nat
  | 0, _ => []
  | k+1, n => n % 2 :: bitsLE k (n / 2)

/-- Big-endian bit list of a natural number, `k` bits. -/
def bitsBE (k n : Nat) : List Nat := (bitsLE k n).reverse

/-- Fuel-based binary search for the integer cube root. -/
def cbrtGo (n : Nat) : Nat → Nat → Nat → Nat
  | 0, lo, _ => lo
  | f+1, lo, hi =>
    if lo < hi then
      let mid := (lo + hi + 1) / 2
      if mid * mid * mid ≤ n then cbrtGo n f mid hi else cbrtGo n f lo (mid - 1)
    else lo

/-- Integer cube root (adequate for inputs below 2^210). -/
def icbrt (n : Nat) : Nat := cbrtGo n 80 0 1180591620717411303424

/-- Fuel-based binary search for the integer square root. -/
def sqrtGo (n : Nat) : Nat → Nat → Nat → Nat
  | 0, lo, _ => lo
  | f+1, lo, hi =>
    if lo < hi then
      let mid := (lo + hi + 1) / 2
      if mid * mid ≤ n then sqrtGo n f mid hi else sqrtGo n f lo (mid - 1)
    else lo

/-- Integer square root (adequate for inputs below 2^200). -/
def isqrt (n : Nat) : Nat := sqrtGo n 110 0 1267650600228229401496703205376

/-- The first eighty primes, used to derive the SHA-2 constants. -/
def primes80 : List Nat :=
  [2, 3, 5, 7, 11, 13, 17, 19, 23, 29, 31, 37, 41, 43, 47, 53,
   59, 61, 67, 71, 73, 79, 83, 89, 97, 101, 103, 107, 109, 113, 127, 131,
   137, 139, 149, 151, 157, 163, 167, 173, 179, 181, 191, 193, 197, 199, 211, 223,
   227, 229, 233, 239, 241, 251, 257, 263, 269, 271, 277, 281, 283, 293, 307, 311,
   313, 317, 331, 337, 347, 349, 353, 359, 367, 373, 379, 383, 389, 397, 401, 409]

/-- SHA-256 round constants: fractional parts of the cube roots of the
first sixty-four primes (FIPS 180-4 §4.2.2). -/
def sha256K : List Nat :=
  (primes80.take 64).map (fun q => icbrt (q * 79228162514264337593543950336) % 4294967296)

/-- An eight-word hash state (used by both SHA-256 and SHA-512). -/
structure Hash8 where
  e0 : Nat
  e1 : Nat
  e2 : Nat
  e3 : Nat
  e4 : Nat
  e5 : Nat
  e6 : Nat
  e7 : Nat

/-- SHA-256 initial hash value: fractional parts of the square roots of the
first eight primes (FIPS 180-4 §5.3.3). -/
def sha256H0 : Hash8 :=
  match (primes80.take 8).map (fun q => isqrt (q * 18446744073709551616) % 4294967296) with
  | [a, b, c, d, e, f, g, h] => ⟨a, b, c, d, e, f, g, h⟩
  | _ => ⟨0, 0, 0, 0, 0, 0, 0, 0⟩

/-- SHA-256 padding (FIPS 180-4 §5.1.1). -/
def sha256Pad (msg : List Nat) : List Nat :=
  msg ++ 128 :: List.replicate ((64 - (msg.length + 9) % 64) % 64) 0 ++ be64 (8 * msg.length)

/-- Read a big-endian 32-bit word at byte offset `o`. -/
def beWord32At (l : List Nat) (o : Nat) : Nat :=
  (l.getD o 0 <<< 24) ||| (l.getD (o+1) 0 <<< 16) ||| (l.getD (o+2) 0 <<< 8) ||| l.getD (o+3) 0

/-- SHA-256 message schedule of one 64-byte block. -/
def sha256Schedule (block : List Nat) : List Nat :=
  let w0 := (List.range 16).map (fun t => beWord32At block (4 * t))
  (List.range 48).foldl (fun w _ =>
    let n := w.length
    let s0 := rotr32 (w.getD (n - 15) 0) 7 ^^^ rotr32 (w.getD (n - 15) 0) 18 ^^^ (w.getD (n - 15) 0 >>> 3)
    let s1 := rotr32 (w.getD (n - 2) 0) 17 ^^^ rotr32 (w.getD (n - 2) 0) 19 ^^^ (w.getD (n - 2) 0 >>> 10)
    w ++ [w32 (w.getD (n - 16) 0 + s0 + w.getD (n - 7) 0 + s1)]) w0

/-- One SHA-256 round. -/
def sha256Round (s : Hash8) (kw : Nat × Nat) : Hash8 :=
  let S1 := rotr32 s.e4 6 ^^^ rotr32 s.e4 11 ^^^ rotr32 s.e4 25
  let ch := (s.e4 &&& s.e5) ^^^ ((s.e4 ^^^ 4294967295) &&& s.e6)
  let t1 := w32 (s.e7 + S1 + ch + kw.1 + kw.2)
  let S0 := rotr32 s.e0 2 ^^^ rotr32 s.e0 13 ^^^ rotr32 s.e0 22
  let maj := (s.e0 &&& s.e1) ^^^ (s.e0 &&& s.e2) ^^^ (s.e1 &&& s.e2)
  let t2 := w32 (S0 + maj)
  ⟨w32 (t1 + t2), s.e0, s.e1, s.e2, w32 (s.e3 + t1), s.e4, s.e5, s.e6⟩

/-- SHA-256 compression of one 64-byte block into the running state. -/
def sha256Compress (st : Hash8) (block : List Nat) : Hash8 :=
  let r := (sha256K.zip (sha256Schedule block)).foldl sha256Round st
  ⟨w32 (st.e0 + r.e0), w32 (st.e1 + r.e1), w32 (st.e2 + r.e2), w32 (st.e3 + r.e3),
   w32 (st.e4 + r.e4), w32 (st.e5 + r.e5), w32 (st.e6 + r.e6), w32 (st.e7 + r.e7)⟩

/-- Serialise an eight-word 32-bit state to 32 bytes. -/
def hash8Bytes32 (s : Hash8) : List Nat :=
  be32 s.e0 ++ be32 s.e1 ++ be32 s.e2 ++ be32 s.e3 ++ be32 s.e4 ++ be32 s.e5 ++ be32 s.e6 ++ be32 s.e7

/-- SHA-256 of a byte string (FIPS 180-4). -/
def sha256 (msg : List Nat) : List Nat :=
  hash8Bytes32 ((chunks 64 (sha256Pad msg)).foldl sha256Compress sha256H0)

/-- Big-endian 16-byte serialisation of a 128-bit word. -/
def be128 (x : Nat) : List Nat := be64 (x >>> 64) ++ be64 (x % 18446744073709551616)

/-- SHA-512 round constants: fractional parts of the cube roots of the
first eighty primes (FIPS 180-4 §4.2.3). -/
def sha512K : List Nat :=
  primes80.map (fun q => icbrt (q * 6277101735386680763835789423207666416102355444464034512896) % 18446744073709551616)

/-- SHA-512 initial hash value: fractional parts of the square roots of the
first eight primes (FIPS 180-4 §5.3.5). -/
def sha512H0 : Hash8 :=
  match (primes80.take 8).map
      (fun q => isqrt (q * 340282366920938463463374607431768211456) % 18446744073709551616) with
  | [a, b, c, d, e, f, g, h] => ⟨a, b, c, d, e, f, g, h⟩
  | _ => ⟨0, 0, 0, 0, 0, 0, 0, 0⟩

/-- SHA-512 padding (FIPS 180-4 §5.1.2): to a multiple of 128 bytes with a
128-bit length field. -/
def sha512Pad (msg : List Nat) : List Nat :=
  msg ++ 128 :: List.replicate ((128 - (msg.length + 17) % 128) % 128) 0 ++ be128 (8 * msg.length)

/-- Read a big-endian 64-bit word at byte offset `o`. -/
def beWord64At (l : List Nat) (o : Nat) : Nat :=
  (beWord32At l o <<< 32) ||| beWord32At l (o + 4)

/-- SHA-512 message schedule of one 128-byte block. -/
def sha512Schedule (block : List Nat) : List Nat :=
  let w0 := (List.range 16).map (fun t => beWord64At block (8 * t))
  (List.range 64).foldl (fun w _ =>
    let n := w.length
    let s0 := rotr64 (w.getD (n - 15) 0) 1 ^^^ rotr64 (w.getD (n - 15) 0) 8 ^^^ (w.getD (n - 15) 0 >>> 7)
    let s1 := rotr64 (w.getD (n - 2) 0) 19 ^^^ rotr64 (w.getD (n - 2) 0) 61 ^^^ (w.getD (n - 2) 0 >>> 6)
    w ++ [w64 (w.getD (n - 16) 0 + s0 + w.getD (n - 7) 0 + s1)]) w0

/-- One SHA-512 round. -/
def sha512Round (s : Hash8) (kw : Nat × Nat) : Hash8 :=
  let S1 := rotr64 s.e4 14 ^^^ rotr64 s.e4 18 ^^^ rotr64 s.e4 41
  let ch := (s.e4 &&& s.e5) ^^^ ((s.e4 ^^^ 18446744073709551615) &&& s.e6)
  let t1 := w64 (s.e7 + S1 + ch + kw.1 + kw.2)
  let S0 := rotr64 s.e0 28 ^^^ rotr64 s.e0 34 ^^^ rotr64 s.e0 39
  let maj := (s.e0 &&& s.e1) ^^^ (s.e0 &&& s.e2) ^^^ (s.e1 &&& s.e2)
  let t2 := w64 (S0 + maj)
  ⟨w64 (t1 + t2), s.e0, s.e1, s.e2, w64 (s.e3 + t1), s.e4, s.e5, s.e6⟩

/-- SHA-512 compression of one 128-byte block into the running state. -/
def sha512Compress (st : Hash8) (block : List Nat) : Hash8 :=
  let r := (sha512K.zip (sha512Schedule block)).foldl sha512Round st
  ⟨w64 (st.e0 + r.e0), w64 (st.e1 + r.e1), w64 (st.e2 + r.e2), w64 (st.e3 + r.e3),
   w64 (st.e4 + r.e4), w64 (st.e5 + r.e5), w64 (st.e6 + r.e6), w64 (st.e7 + r.e7)⟩

/-- Serialise an eight-word 64-bit state to 64 bytes. -/
def hash8Bytes64 (s : Hash8) : List Nat :=
  be64 s.e0 ++ be64 s.e1 ++ be64 s.e2 ++ be64 s.e3 ++ be64 s.e4 ++ be64 s.e5 ++ be64 s.e6 ++ be64 s.e7

/-- SHA-512 of a byte string (FIPS 180-4). -/
def sha512 (msg : List Nat) : List Nat :=
  hash8Bytes64 ((chunks 128 (sha512Pad msg)).foldl sha512Compress sha512H0)

/-- HMAC key block: hash an over-long key, then zero-pad to 64 bytes
(FIPS 198-1 with SHA-256). -/
def hmacKeyBlock (key : List Nat) : List Nat :=
  let k0 := if 64 < key.length then sha256 key else key
  k0 ++ List.replicate (64 - k0.length) 0

/-- HMAC-SHA-256 (FIPS 198-1). -/
def hmacSha256 (key msg : List Nat) : List Nat :=
  let kb := hmacKeyBlock key
  sha256 (kb.map (fun b => b ^^^ 92) ++ sha256 (kb.map (fun b => b ^^^ 54) ++ msg))

/-- HKDF-SHA-256 extract step (RFC 5869 §2.2): the salt is the HMAC key,
exactly as the hkdf crate's Hkdf::new. -/
def hkdfExtract (salt ikm : List Nat) : List Nat := hmacSha256 salt ikm

/-- The first `n` HKDF output blocks T(1)‖…‖T(n) together with the last
block (RFC 5869 §2.3). -/
def hkdfBlocks (prk info : List Nat) : Nat → List Nat × List Nat
  | 0 => ([], [])
  | n+1 =>
    let p := hkdfBlocks prk info n
    let t := hmacSha256 prk (p.2 ++ info ++ [(n + 1) % 256])
    (p.1 ++ t, t)

/-- PBKDF2 inner loop: iterate the HMAC `c` more times from `u`,
accumulating the running XOR in `acc` (RFC 8018 §5.2). -/
def pbkdf2Iter (pw : List Nat) (u acc : List Nat) : Nat → List Nat
  | 0 => acc
  | c+1 =>
    let u2 := hmacSha256 pw u
    pbkdf2Iter pw u2 (List.zipWith (fun a b => a ^^^ b) acc u2) c

/-- One PBKDF2-HMAC-SHA-256 block F(pw, salt, c, i). -/
def pbkdf2F (pw salt : List Nat) (c i : Nat) : List Nat :=
  let u1 := hmacSha256 pw (salt ++ be32 i)
  pbkdf2Iter pw u1 u1 (c - 1)

/-- Concatenation of the first `n` PBKDF2 blocks. -/
def pbkdf2Blocks (pw salt : List Nat) (c : Nat) : Nat → List Nat
  | 0 => []
  | n+1 => pbkdf2Blocks pw salt c n ++ pbkdf2F pw salt c (n + 1)

/-- PBKDF2-HMAC-SHA-256 with output truncated to `len` bytes, the
function ring's pbkdf2::derive computes (RFC 8018 §5.2). -/
def pbkdf2HmacSha256 (pw salt : List Nat) (c len : Nat) : List Nat :=
  (pbkdf2Blocks pw salt c ((len + 31) / 32)).take len

/-- Multiplication in GF(2^8) modulo the AES polynomial x^8+x^4+x^3+x+1. -/
def gf8mulGo : Nat → Nat → Nat → Nat → Nat
  | 0, _, _, acc => acc
  | f+1, a, b, acc =>
    let acc2 := if b % 2 = 1 then acc ^^^ a else acc
    let a2 := if 128 ≤ a then ((a <<< 1) ^^^ 27) % 256 else (a <<< 1) % 256
    gf8mulGo f a2 (b / 2) acc2

/-- Multiplication in GF(2^8). -/
def gf8mul (a b : Nat) : Nat := gf8mulGo 8 (a % 256) (b % 256) 0

/-- Iterated GF(2^8) multiplication. -/
def gf8pow (a : Nat) : Nat → Nat
  | 0 => 1
  | n+1 => gf8mul a (gf8pow a n)

/-- Left-rotate an 8-bit value by `n` places. -/
def rotl8 (x n : Nat) : Nat := ((x <<< n) ||| (x >>> (8 - n))) % 256

/-- The AES S-box: multiplicative inverse in GF(2^8) (zero maps to zero)
followed by the affine transform (FIPS 197 §5.1.1). -/
def sbox (x : Nat) : Nat :=
  let b := if x % 256 = 0 then 0 else gf8pow (x % 256) 254
  b ^^^ rotl8 b 1 ^^^ rotl8 b 2 ^^^ rotl8 b 3 ^^^ rotl8 b 4 ^^^ 99

/-- Apply the S-box to each byte of a 32-bit word. -/
def subWord (wd : Nat) : Nat :=
  (sbox ((wd >>> 24) % 256) <<< 24) ||| (sbox ((wd >>> 16) % 256) <<< 16) |||
    (sbox ((wd >>> 8) % 256) <<< 8) ||| sbox (wd % 256)

/-- Rotate a 32-bit word left by one byte. -/
def rotWord (wd : Nat) : Nat := w32 ((wd <<< 8) ||| (wd >>> 24))

/-- AES-256 key expansion to sixty 32-bit words (FIPS 197 §5.2). -/
def keyExpand (key : List Nat) : List Nat :=
  let w0 := (List.range 8).map (fun i => beWord32At key (4 * i))
  (List.range 52).foldl (fun w _ =>
    let i := w.length
    let prev := w.getD (i - 1) 0
    let temp :=
      if i % 8 = 0 then subWord (rotWord prev) ^^^ (gf8pow 2 (i / 8 - 1) <<< 24)
      else if i % 8 = 4 then subWord prev
      else prev
    w ++ [temp ^^^ w.getD (i - 8) 0]) w0

/-- XOR the round key for round `r` into the state (column-major byte
order, state index 4·c + row). -/
def addRoundKey (w : List Nat) (r : Nat) (s : List Nat) : List Nat :=
  List.ofFn (fun i : Fin 16 =>
    s.getD i.val 0 ^^^ ((w.getD (4 * r + i.val / 4) 0 >>> (24 - 8 * (i.val % 4))) % 256))

/-- SubBytes step. -/
def subBytesS (s : List Nat) : List Nat :=
  List.ofFn (fun i : Fin 16 => sbox (s.getD i.val 0))

/-- ShiftRows step: row `r` rotates left by `r` columns. -/
def shiftRowsS (s : List Nat) : List Nat :=
  List.ofFn (fun i : Fin 16 =>
    s.getD (4 * ((i.val / 4 + i.val % 4) % 4) + i.val % 4) 0)

/-- MixColumns step. -/
def mixColumnsS (s : List Nat) : List Nat :=
  List.ofFn (fun i : Fin 16 =>
    let c := i.val / 4
    let r := i.val % 4
    gf8mul 2 (s.getD (4 * c + r) 0) ^^^ gf8mul 3 (s.getD (4 * c + (r + 1) % 4) 0) ^^^
      s.getD (4 * c + (r + 2) % 4) 0 ^^^ s.getD (4 * c + (r + 3) % 4) 0)

/-- One full AES round (rounds 1 to 13 of AES-256). -/
def aesRound (w : List Nat) (r : Nat) (s : List Nat) : List Nat :=
  addRoundKey w r (mixColumnsS (shiftRowsS (subBytesS s)))

/-- AES-256 encryption of one 16-byte block (FIPS 197 §5.1). -/
def aesBlock (key block : List Nat) : List Nat :=
  let w := keyExpand key
  addRoundKey w 14
    (shiftRowsS (subBytesS
      ((List.range 13).foldl (fun s j => aesRound w (j + 1) s) (addRoundKey w 0 block))))

/-- Multiplication in GF(2^128) with the GCM bit convention
(NIST SP 800-38D §6.3); blocks are 128-bit naturals, MSB-first. -/
def gf128mulGo : Nat → Nat → Nat → Nat → Nat
  | 0, _, _, z => z
  | f+1, x, v, z =>
    let z2 := if (x >>> 127) % 2 = 1 then z ^^^ v else z
    let v2 := if v % 2 = 1 then (v >>> 1) ^^^ (225 <<< 120) else v >>> 1
    gf128mulGo f ((x <<< 1) % 340282366920938463463374607431768211456) v2 z2

/-- Multiplication in GF(2^128). -/
def gf128mul (x y : Nat) : Nat := gf128mulGo 128 x y 0

/-- GHASH over a byte string already padded as required
(NIST SP 800-38D §6.4). -/
def ghash (h : Nat) (data : List Nat) : Nat :=
  (chunks 16 data).foldl (fun y blk => gf128mul (y ^^^ beNat blk) h) 0

/-- The `i`-th counter block: the 12-byte IV with a 32-bit big-endian
block counter. -/
def ctrBlock (nonce : List Nat) (i : Nat) : List Nat := nonce ++ be32 i

/-- Zero padding of a byte string to a multiple of 16 bytes. -/
def zpad16 (l : List Nat) : List Nat :=
  l ++ List.replicate ((16 - l.length % 16) % 16) 0

/-- The first `n` CTR keystream blocks (counters 2, 3, …, n+1, as GCM
reserves counter 1 for the tag). -/
def gcmKeystream (key nonce : List Nat) : Nat → List Nat
  | 0 => []
  | n+1 => gcmKeystream key nonce n ++ aesBlock key (ctrBlock nonce (n + 2))

/-- XOR data against the CTR keystream. -/
def ctrXor (key nonce data : List Nat) : List Nat :=
  List.zipWith (fun a b => a ^^^ b) data (gcmKeystream key nonce ((data.length + 15) / 16))

/-- The GCM authentication tag over the aad and ciphertext
(NIST SP 800-38D §7.1). -/
def gcmTag (key nonce aad ct : List Nat) : List Nat :=
  let h := beNat (aesBlock key (List.replicate 16 0))
  let s := ghash h (zpad16 aad ++ zpad16 ct ++ be64 (8 * aad.length) ++ be64 (8 * ct.length))
  List.zipWith (fun a b => a ^^^ b) (aesBlock key (ctrBlock nonce 1)) (be128 s)

/-- AES-256-GCM encryption: ciphertext followed by the 16-byte tag,
exactly as the aes-gcm crate's Aead::encrypt returns. -/
def gcmEncrypt (key nonce aad pt : List Nat) : List Nat :=
  let ct := ctrXor key nonce pt
  ct ++ gcmTag key nonce aad ct

/-- AES-256-GCM decryption: split off the trailing tag, verify it, and
only then decrypt; `none` models the crate's aead::Error. -/
def gcmDecrypt (key nonce aad input : List Nat) : Option (List Nat) :=
  if input.length < 16 then none
  else
    let ct := input.take (input.length - 16)
    let tag := input.drop (input.length - 16)
    if gcmTag key nonce aad ct = tag then some (ctrXor key nonce ct) else none

/-- The prime 2^255 − 19 underlying Curve25519 and edwards25519. -/
def p25519 : Nat := 57896044618658097711785492504343953926634992332820282019728792003956564819949

/-- Field addition modulo 2^255 − 19. -/
def addm (a b : Nat) : Nat := (a + b) % p25519

/-- Field subtraction modulo 2^255 − 19. -/
def subm (a b : Nat) : Nat := (a % p25519 + (p25519 - b % p25519)) % p25519

/-- Field multiplication modulo 2^255 − 19. -/
def mulm (a b : Nat) : Nat := a * b % p25519

/-- Square-and-multiply modular exponentiation modulo 2^255 − 19
(260-bit exponents suffice throughout). -/
def powm (a e : Nat) : Nat :=
  (bitsBE 260 e).foldl (fun acc b => let s := mulm acc acc; if b = 1 then mulm s a else s) 1

/-- Field inversion by Fermat exponentiation. -/
def invm (a : Nat) : Nat := powm a (p25519 - 2)

/-- X25519 scalar clamping (RFC 7748 §5 decodeScalar25519): clear the
three low bits and bit 255, set bit 254. -/
def clamp25519 (k : Nat) : Nat :=
  28948022309329048855892746252171976963317496166410141009864396001978282409984 +
    k % 28948022309329048855892746252171976963317496166410141009864396001978282409984 / 8 * 8

/-- One step of the Montgomery ladder (RFC 7748 §5). -/
def ladderStep (x1 : Nat) (st : Nat × Nat × Nat × Nat) : Nat × Nat × Nat × Nat :=
  let x2 := st.1
  let z2 := st.2.1
  let x3 := st.2.2.1
  let z3 := st.2.2.2
  let a := addm x2 z2
  let aa := mulm a a
  let b := subm x2 z2
  let bb := mulm b b
  let e := subm aa bb
  let c := addm x3 z3
  let d := subm x3 z3
  let da := mulm d a
  let cb := mulm c b
  (mulm aa bb, mulm e (addm aa (mulm 121665 e)),
   mulm (addm da cb) (addm da cb), mulm x1 (mulm (subm da cb) (subm da cb)))

/-- The X25519 function on a clamped scalar and a u-coordinate: the
Montgomery ladder of RFC 7748 §5, as x25519-dalek computes it. -/
def x25519ladder (k u : Nat) : Nat :=
  let x1 := u % p25519
  let fin := (bitsBE 255 k).foldl (fun st bit =>
    if bit = 1 then
      let r := ladderStep x1 (st.2.2.1, st.2.2.2, st.1, st.2.1)
      (r.2.2.1, r.2.2.2, r.1, r.2.1)
    else ladderStep x1 st) (1, 0, x1, 1)
  mulm fin.1 (invm fin.2.1)

/-- X25519 on byte buffers: clamp the scalar, mask the u-coordinate's top
bit (RFC 7748 §5), run the ladder, serialise little-endian. -/
def x25519 (secret pub : List Nat) : List Nat :=
  leBytes 32 (x25519ladder (clamp25519 (leNat secret))
    (leNat pub % 57896044618658097711785492504343953926634992332820282019728792003956564819968))

/-- The edwards25519 curve constant d = −121665/121666. -/
def edD : Nat := mulm (p25519 - 121665) (invm 121666)

/-- A square root of −1 modulo 2^255 − 19. -/
def sqrtM1 : Nat := powm 2 ((p25519 - 1) / 4)

/-- The ed25519 group order ℓ = 2^252 + 27742317777372353535851937790883648493. -/
def edL : Nat := 7237005577332262213973186563042994240857116359379907606001950938285454250989

/-- A point of edwards25519 in extended twisted Edwards coordinates. -/
structure EdPoint where
  px : Nat
  py : Nat
  pz : Nat
  pw : Nat
deriving DecidableEq

/-- The neutral element. -/
def edId : EdPoint := ⟨0, 1, 1, 0⟩

/-- Unified extended-coordinate addition on the a = −1 twisted Edwards
curve, the formula curve25519-dalek uses for EdwardsPoint addition. -/
def edAdd (P Q : EdPoint) : EdPoint :=
  let a := mulm (subm P.py P.px) (subm Q.py Q.px)
  let b := mulm (addm P.py P.px) (addm Q.py Q.px)
  let c := mulm (mulm P.pw Q.pw) (mulm 2 edD)
  let d := mulm (mulm P.pz Q.pz) 2
  let e := subm b a
  let f := subm d c
  let g := addm d c
  let h := addm b a
  ⟨mulm e f, mulm g h, mulm f g, mulm e h⟩

/-- Point negation. -/
def edNeg (P : EdPoint) : EdPoint :=
  ⟨(p25519 - P.px % p25519) % p25519, P.py, P.pz, (p25519 - P.pw % p25519) % p25519⟩

/-- One double-and-add step of scalar multiplication. -/
def edStep (P acc : EdPoint) (b : Nat) : EdPoint :=
  let dbl := edAdd acc acc
  if b = 1 then edAdd dbl P else dbl

/-- Double-and-add scalar multiplication (256-bit scalars). -/
def edSmul (n : Nat) (P : EdPoint) : EdPoint :=
  (bitsBE 256 n).foldl (edStep P) edId

/-- Compress a point to its 32-byte encoding: little-endian y with the
parity of x in bit 255. -/
def edCompress (P : EdPoint) : List Nat :=
  let zi := invm P.pz
  let x := mulm P.px zi
  let y := mulm P.py zi
  leBytes 32 (y + x % 2 * 57896044618658097711785492504343953926634992332820282019728792003956564819968)

/-- The square-root-ratio computation of curve25519-dalek's sqrt_ratio_i:
a root of u/v when u/v is square, adjusted by √−1 when needed. -/
def sqrtRatio (u v : Nat) : Option Nat :=
  let cand := mulm (mulm u (powm v 3)) (powm (mulm u (powm v 7)) ((p25519 - 5) / 8))
  let check := mulm v (mulm cand cand)
  if check = u % p25519 then some cand
  else if check = (p25519 - u % p25519) % p25519 then some (mulm cand sqrtM1)
  else none

/-- Decompress a 32-byte encoding to a curve point, as
CompressedEdwardsY::decompress (used by PublicKey::from_bytes): recover
x from x² = (y²−1)/(dy²+1), failing when no root exists, then match the
sign bit. -/
def edDecompress (bytes : List Nat) : Option EdPoint :=
  let raw := leNat bytes
  let sign := (raw >>> 255) % 2
  let y := raw % 57896044618658097711785492504343953926634992332820282019728792003956564819968 % p25519
  let u := subm (mulm y y) 1
  let v := addm (mulm edD (mulm y y)) 1
  match sqrtRatio u v with
  | none => none
  | some x0 =>
    let x := if x0 % 2 = sign then x0 else (p25519 - x0) % p25519
    some ⟨x, y, 1, mulm x y⟩

/-- The ed25519 basepoint (y = 4/5, even x). -/
def edBase : EdPoint :=
  match edDecompress (leBytes 32 (mulm 4 (invm 5))) with
  | some P => P
  | none => edId

/-- The non-canonical-s check of ed25519-dalek 1.x Signature::from_bytes:
the three top bits of the s half must be clear. -/
def sigSCheckFails (sig : List Nat) : Bool := decide (sig.getD 63 0 &&& 224 ≠ 0)

/-- The verification equation check of ed25519-dalek 1.x
PublicKey::verify: recompute R = [s]B + [k](−A) with
k = SHA-512(R ‖ A ‖ M) mod ℓ and compare its compression against the R
half of the signature. -/
def edVerifyCheck (A : EdPoint) (pub msg sig : List Nat) : Bool :=
  let rb := sig.take 32
  let s := leNat (sig.drop 32)
  let k := leNat (sha512 (rb ++ pub ++ msg)) % edL
  decide (edCompress (edAdd (edSmul s edBase) (edSmul k (edNeg A))) = rb)

/-- The boolean ed25519_verify computes once both encodings parse. -/
def edVerifyBool (pub msg sig : List Nat) : Bool :=
  match edDecompress pub with
  | some A => edVerifyCheck A pub msg sig
  | none => false

/-- Ed25519 signing from the 32-byte seed and the stored public-key
bytes, as ed25519-dalek 1.x ExpandedSecretKey::sign (RFC 8032 §5.1.6). -/
def ed25519SignBytes (seed pub msg : List Nat) : List Nat :=
  let h := sha512 seed
  let a := clamp25519 (leNat (h.take 32))
  let pfx := h.drop 32
  let r := leNat (sha512 (pfx ++ msg)) % edL
  let rb := edCompress (edSmul r edBase)
  let k := leNat (sha512 (rb ++ pub ++ msg)) % edL
  rb ++ leBytes 32 ((r + k * a) % edL)

/-- Outcome of one call into the native module as the JavaScript caller
sees it: a returned value, a synchronously thrown typed error
(cx.throw_error), or a Rust panic (process abort, not a recoverable
typed error). -/
inductive NativeResult (α : Type) where
  | ok (v : α)
  | error (msg : String)
  | panic (msg : String)
deriving DecidableEq

/-- Sequencing on call outcomes. -/
def NativeResult.bind {α β : Type} : NativeResult α → (α → NativeResult β) → NativeResult β
  | .ok v, f => f v
  | .error m, _ => .error m
  | .panic m, _ => .panic m

/-- True exactly on a returned value. -/
def NativeResult.isOk {α : Type} : NativeResult α → Bool
  | .ok _ => true
  | _ => false

/-- Embedding of x25519_ecdh (lib.rs lines 58–84).  Each input buffer is
copied with copy_from_slice into a [u8; 32], which panics unless the
buffer is exactly 32 bytes; there is no recoverable length check.  The
scalar multiplication is x25519-dalek's diffie_hellman. -/
def x25519_ecdh (secret pub : List Nat) : NativeResult (List Nat) :=
  if secret.length = 32 then
    if pub.length = 32 then
      .ok (x25519 secret pub)
    else .panic ("copy_from_slice: source slice length does not match destination")
  else .panic ("copy_from_slice: source slice length does not match destination")

/-- Embedding of hkdf_expand (lib.rs lines 87–109).  Hkdf::new(Some salt,
ikm) is HKDF-SHA-256 extract with the salt as HMAC key; expand fails
exactly when the requested length exceeds 255 × 32 bytes, and that
failure is thrown to the caller. -/
def hkdf_expand (salt ikm info : List Nat) (length : Nat) : NativeResult (List Nat) :=
  let prk := hkdfExtract salt ikm
  if 8160 < length then .error ("HKDF expansion failed")
  else .ok ((hkdfBlocks prk info ((length + 31) / 32)).1.take length)

/-- Embedding of aes_encrypt (lib.rs lines 112–150).  Key and nonce are
copied with copy_from_slice into [u8; 32] / [u8; 12] (panicking on any
other length); the aad buffer is read into a local that is never passed
to the cipher, so the AEAD is invoked with an empty aad. -/
def aes_encrypt (key nonce plaintext aad : List Nat) : NativeResult (List Nat) :=
  if key.length = 32 then
    if nonce.length = 12 then
      .ok (gcmEncrypt key nonce [] plaintext)
    else .panic ("copy_from_slice: source slice length does not match destination")
  else .panic ("copy_from_slice: source slice length does not match destination")

/-- Embedding of aes_decrypt (lib.rs lines 153–187).  Same panicking
length handling as aes_encrypt; the aad local is likewise dropped, so
the tag is checked against an empty aad; an AEAD failure is thrown. -/
def aes_decrypt (key nonce ciphertext aad : List Nat) : NativeResult (List Nat) :=
  if key.length = 32 then
    if nonce.length = 12 then
      match gcmDecrypt key nonce [] ciphertext with
      | some pt => .ok pt
      | none => .error ("Decryption failed")
    else .panic ("copy_from_slice: source slice length does not match destination")
  else .panic ("copy_from_slice: source slice length does not match destination")

/-- Embedding of ed25519_sign (lib.rs lines 190–213).  The keypair buffer
is copied into a [u8; 64] (panicking on any other length);
Keypair::from_bytes fails - thrown as an error - exactly when the public
half does not decompress; signing then follows RFC 8032 using the seed
half and the stored public bytes. -/
def ed25519_sign (keypair message : List Nat) : NativeResult (List Nat) :=
  if keypair.length = 64 then
    match edDecompress (keypair.drop 32) with
    | none => .error ("Invalid keypair")
    | some _ => .ok (ed25519SignBytes (keypair.take 32) (keypair.drop 32) message)
  else .panic ("copy_from_slice: source slice length does not match destination")

/-- Embedding of ed25519_verify (lib.rs lines 216–244).  The public key
and signature buffers are copied into [u8; 32] / [u8; 64] (panicking on
any other length); PublicKey::from_bytes fails - thrown - when the point
does not decompress; Signature::from_bytes fails - thrown - when the
three top bits of s are set; otherwise the boolean outcome of the
verification equation is returned. -/
def ed25519_verify (publicKey message signature : List Nat) : NativeResult Bool :=
  if publicKey.length = 32 then
    if signature.length = 64 then
      match edDecompress publicKey with
      | none => .error ("Invalid public key")
      | some A =>
        if sigSCheckFails signature then .error ("Invalid signature")
        else .ok (edVerifyCheck A publicKey message signature)
    else .panic ("copy_from_slice: source slice length does not match destination")
  else .panic ("copy_from_slice: source slice length does not match destination")

/-- Embedding of pbkdf2_derive (lib.rs lines 247–272).  The iteration
count is passed through NonZeroU32::new(iterations).unwrap(), which
panics when iterations = 0; there is no recoverable iteration-count
check.  Otherwise ring's pbkdf2::derive fills the output buffer with
PBKDF2-HMAC-SHA-256. -/
def pbkdf2_derive (password salt : List Nat) (iterations outputLength : Nat) :
    NativeResult (List Nat) :=
  if iterations = 0 then .panic ("called Option::unwrap() on a None value")
  else .ok (pbkdf2HmacSha256 password salt iterations outputLength)

/-- The first 64 bits of the scalar k arising in the concrete
verification instance below. -/
def bitsKa : List Nat :=
  [0,0,0,0,0,0,1,1,1,1,1,0,1,1,0,0,1,0,1,1,0,1,0,1,0,0,0,0,0,1,0,1,
   1,1,1,0,0,1,1,0,1,1,0,1,1,0,1,1,1,0,0,0,0,0,1,0,0,1,0,0,1,0,0,1]

/-- Bits 64 to 127 of that scalar. -/
def bitsKb : List Nat :=
  [0,1,0,1,0,1,0,0,0,1,1,0,1,1,0,0,0,1,0,1,0,0,1,1,0,1,0,1,1,0,1,0,
   1,0,1,0,1,0,1,1,1,0,0,0,0,1,1,1,1,0,1,0,0,1,1,1,0,0,1,0,1,1,1,1]

/-- Bits 128 to 191 of that scalar. -/
def bitsKc : List Nat :=
  [1,0,1,0,1,1,1,1,1,0,1,0,1,1,1,0,0,1,1,0,1,1,1,0,0,1,0,0,1,0,1,1,
   0,0,1,0,0,0,0,1,1,0,0,1,1,1,1,0,0,1,0,0,1,1,0,0,0,0,1,1,0,1,1,1]

/-- Bits 192 to 255 of that scalar. -/
def bitsKd : List Nat :=
  [0,1,0,1,1,1,1,1,1,0,1,0,1,0,0,0,0,1,0,0,0,1,1,0,1,1,1,0,1,0,1,1,
   0,1,0,0,0,1,1,1,1,0,0,0,1,0,0,0,0,0,1,0,1,0,1,0,1,1,1,1,0,0,1,1]

theorem be32_length (x : Nat) : (be32 x).length = 4 := rfl

theorem be64_length (x : Nat) : (be64 x).length = 8 := rfl

theorem be128_length (x : Nat) : (be128 x).length = 16 := rfl

theorem leBytes_length (k : Nat) : ∀ n : Nat, (leBytes k n).length = k := by
  induction k with
  | zero => intro n; rfl
  | succ k ih => intro n; simp [leBytes, ih]

theorem hash8Bytes32_length (s : Hash8) : (hash8Bytes32 s).length = 32 := rfl

theorem sha256_length (m : List Nat) : (sha256 m).length = 32 := by
  unfold sha256
  exact hash8Bytes32_length _

theorem hmacSha256_length (key msg : List Nat) : (hmacSha256 key msg).length = 32 := by
  unfold hmacSha256
  exact sha256_length _

theorem hkdfBlocks_fst_length (prk info : List Nat) (n : Nat) :
    (hkdfBlocks prk info n).1.length = 32 * n := by
  induction n with
  | zero => rfl
  | succ n ih =>
    simp only [hkdfBlocks, List.length_append, ih, hmacSha256_length]
    omega

theorem le_mul_ceil32 (len : Nat) : len ≤ 32 * ((len + 31) / 32) := by
  have h1 := Nat.div_add_mod (len + 31) 32
  have h2 : (len + 31) % 32 < 32 := Nat.mod_lt _ (by omega)
  omega

theorem le_mul_ceil16 (len : Nat) : len ≤ 16 * ((len + 15) / 16) := by
  have h1 := Nat.div_add_mod (len + 15) 16
  have h2 : (len + 15) % 16 < 16 := Nat.mod_lt _ (by omega)
  omega

theorem aesBlock_length (key block : List Nat) : (aesBlock key block).length = 16 := by
  simp [aesBlock, addRoundKey]

theorem gcmKeystream_length (key nonce : List Nat) (n : Nat) :
    (gcmKeystream key nonce n).length = 16 * n := by
  induction n with
  | zero => rfl
  | succ n ih =>
    simp only [gcmKeystream, List.length_append, ih, aesBlock_length]
    omega

theorem ctrXor_length (key nonce data : List Nat) :
    (ctrXor key nonce data).length = data.length := by
  simp only [ctrXor, List.length_zipWith, gcmKeystream_length]
  have := le_mul_ceil16 data.length
  omega

theorem gcmTag_length (key nonce aad ct : List Nat) :
    (gcmTag key nonce aad ct).length = 16 := by
  simp [gcmTag, List.length_zipWith, aesBlock_length, be128_length]

theorem zipWith_xor_invol : ∀ pt ks : List Nat, pt.length ≤ ks.length →
    List.zipWith (fun a b => a ^^^ b) (List.zipWith (fun a b => a ^^^ b) pt ks) ks = pt
  | [], _, _ => by simp
  | _ :: _, [], h => by simp at h
  | p :: pt, k :: ks, h => by
    simp only [List.zipWith]
    rw [zipWith_xor_invol pt ks (by simpa using h)]
    rw [Nat.xor_cancel_right]

theorem ctrXor_invol (key nonce pt : List Nat) :
    ctrXor key nonce (ctrXor key nonce pt) = pt := by
  have hct := ctrXor_length key nonce pt
  unfold ctrXor at hct ⊢
  rw [hct]
  exact zipWith_xor_invol pt _ (by rw [gcmKeystream_length]; exact le_mul_ceil16 pt.length)

theorem gcm_roundtrip (key nonce aad pt : List Nat) :
    gcmDecrypt key nonce aad (gcmEncrypt key nonce aad pt) = some pt := by
  have hct : (ctrXor key nonce pt).length = pt.length := ctrXor_length key nonce pt
  have htag : (gcmTag key nonce aad (ctrXor key nonce pt)).length = 16 :=
    gcmTag_length key nonce aad _
  have henc : gcmEncrypt key nonce aad pt =
      ctrXor key nonce pt ++ gcmTag key nonce aad (ctrXor key nonce pt) := rfl
  rw [henc]
  unfold gcmDecrypt
  rw [List.length_append, hct, htag]
  rw [if_neg (by omega)]
  have h2 : pt.length + 16 - 16 = (ctrXor key nonce pt).length := by omega
  rw [h2, List.take_left, List.drop_left]
  rw [if_pos rfl, ctrXor_invol]

theorem aes_wrapper_roundtrip (key nonce pt a1 a2 : List Nat)
    (hk : key.length = 32) (hn : nonce.length = 12) :
    (aes_encrypt key nonce pt a1).bind (fun ct => aes_decrypt key nonce ct a2) = .ok pt := by
  simp [aes_encrypt, aes_decrypt, hk, hn, NativeResult.bind, gcm_roundtrip]

/-- Claim C1: with iterations = 0, pbkdf2_derive reaches
NonZeroU32::new(0).unwrap() and panics; it does not produce the
recoverable typed InvalidIterationCount error the spec requires. -/
theorem pbkdf2_zero_iterations_panics :
    pbkdf2_derive [1, 2, 3] [4, 5] 0 32 = .panic ("called Option::unwrap() on a None value") ∧
    ∀ msg : String, pbkdf2_derive [1, 2, 3] [4, 5] 0 32 ≠ .error msg := by
  constructor
  · rfl
  · intro msg h
    simp [pbkdf2_derive] at h

/-- Claim C2 (refuting demonstration): the aad buffer is never bound into
the AEAD, so decrypting with a different aad than was supplied at
encryption succeeds and returns the plaintext instead of failing
authentication. -/
theorem aes_decrypt_ignores_aad_bug :
    (aes_encrypt (List.replicate 32 0) (List.replicate 12 0) [1, 2, 3] [7]).bind
      (fun ct => aes_decrypt (List.replicate 32 0) (List.replicate 12 0) ct [8]) = .ok [1, 2, 3] ∧
    ([7] : List Nat) ≠ [8] :=
  ⟨aes_wrapper_roundtrip _ _ _ _ _ (by decide) (by decide), by decide⟩

/-- Claim C3: a fixed-size argument of the wrong length reaches
copy_from_slice, which panics; no typed InvalidInputLength error is
produced on any of these paths (shown for a short and a long private
key, a short peer key, a short and a long key or nonce for the AEAD
calls). -/
theorem length_mismatch_panics :
    x25519_ecdh (List.replicate 31 0) (List.replicate 32 9) =
      .panic ("copy_from_slice: source slice length does not match destination") ∧
    x25519_ecdh (List.replicate 32 0) (List.replicate 33 9) =
      .panic ("copy_from_slice: source slice length does not match destination") ∧
    aes_encrypt (List.replicate 16 0) (List.replicate 12 0) [1] [] =
      .panic ("copy_from_slice: source slice length does not match destination") ∧
    aes_encrypt (List.replicate 32 0) (List.replicate 11 0) [1] [] =
      .panic ("copy_from_slice: source slice length does not match destination") ∧
    aes_decrypt (List.replicate 33 0) (List.replicate 12 0) (List.replicate 16 0) [] =
      .panic ("copy_from_slice: source slice length does not match destination") ∧
    aes_decrypt (List.replicate 32 0) (List.replicate 13 0) (List.replicate 16 0) [] =
      .panic ("copy_from_slice: source slice length does not match destination") :=
  ⟨rfl, rfl, rfl, rfl, rfl, rfl⟩

/-- Claim C4: for a 32-byte key, 12-byte nonce and plaintext within the
GCM length ceiling, decrypting the output of aes_encrypt with the same
key, nonce and aad returns the original plaintext. -/
theorem aes_encrypt_decrypt_roundtrip (key nonce plaintext aad : List Nat)
    (hkey : key.length = 32) (hnonce : nonce.length = 12)
    (hsize : plaintext.length ≤ 549755813632) :
    (aes_encrypt key nonce plaintext aad).bind
      (fun ct => aes_decrypt key nonce ct aad) = .ok plaintext :=
  aes_wrapper_roundtrip key nonce plaintext aad aad hkey hnonce

/-- Concrete instance of the C4 round-trip theorem. -/
theorem aes_encrypt_decrypt_roundtrip_witness :
    (aes_encrypt (List.replicate 32 5) (List.replicate 12 6) [1, 2, 3] [9]).bind
      (fun ct => aes_decrypt (List.replicate 32 5) (List.replicate 12 6) ct [9]) = .ok [1, 2, 3] :=
  aes_encrypt_decrypt_roundtrip _ _ _ _ (by decide) (by decide) (by decide)

/-- Claim C6: hkdf_expand succeeds at the 255 × 32 = 8160-byte ceiling
with an output of exactly 8160 bytes, fails one byte past it, and in
general fails exactly when the requested length exceeds 8160. -/
theorem hkdf_expand_boundary (salt ikm info : List Nat) :
    (∃ okm, hkdf_expand salt ikm info 8160 = .ok okm ∧ okm.length = 8160) ∧
    hkdf_expand salt ikm info 8161 = .error ("HKDF expansion failed") ∧
    ∀ len : Nat, (hkdf_expand salt ikm info len).isOk = false ↔ 8160 < len := by
  refine ⟨⟨(hkdfBlocks (hkdfExtract salt ikm) info 255).1.take 8160, ?_, ?_⟩, ?_, ?_⟩
  · simp [hkdf_expand]
  · rw [List.length_take, hkdfBlocks_fst_length]
    omega
  · simp [hkdf_expand]
  · intro len
    by_cases h : 8160 < len
    · simp [hkdf_expand, h, NativeResult.isOk]
    · simp [hkdf_expand, h, NativeResult.isOk]

/-- Claim C7: once the two buffers have the lengths the borrow step
requires, a non-decompressible public key is a thrown "Invalid public
key" error, a signature with non-canonical s bits is a thrown "Invalid
signature" error, and well-formed encodings whose verification equation
fails produce the boolean false rather than an error. -/
theorem ed25519_verify_error_taxonomy (pub msg sig : List Nat)
    (hp : pub.length = 32) (hs : sig.length = 64) :
    ((edDecompress pub).isNone = true →
      ed25519_verify pub msg sig = .error ("Invalid public key")) ∧
    (∀ A, edDecompress pub = some A → sigSCheckFails sig = true →
      ed25519_verify pub msg sig = .error ("Invalid signature")) ∧
    (∀ A, edDecompress pub = some A → sigSCheckFails sig = false →
      edVerifyCheck A pub msg sig = false →
      ed25519_verify pub msg sig = .ok false) := by
  refine ⟨?_, ?_, ?_⟩
  · intro h
    rw [Option.isNone_iff_eq_none] at h
    simp [ed25519_verify, hp, hs, h]
  · intro A hA hbad
    simp [ed25519_verify, hp, hs, hA, hbad]
  · intro A hA hgood hfail
    simp [ed25519_verify, hp, hs, hA, hgood, hfail]

/-- On the concrete input with public key (0, 1) (the identity point, a
valid encoding), empty message and all-zero signature, the verification
equation fails: the recomputed point compresses to the encoding of the
identity, whose first byte is 1, not 0.  The two 256-step scalar
multiplications are evaluated in 64-bit chunks via List.foldl_append. -/
theorem edVerifyCheck_concrete_false :
    edVerifyCheck ⟨0, 1, 1, 0⟩ (1 :: List.replicate 31 0) [] (List.replicate 64 0) = false := by
  have hb0 : bitsBE 256 0 =
      List.replicate 64 0 ++ (List.replicate 64 0 ++ (List.replicate 64 0 ++ List.replicate 64 0)) := by
    decide
  have c1 : List.foldl (edStep edBase) edId (List.replicate 64 0) =
      ⟨0, 53205988779434476509855150657360132267438221853800843304067979220887904017715,
       53205988779434476509855150657360132267438221853800843304067979220887904017715, 0⟩ := by
    decide
  have c2 : List.foldl (edStep edBase)
      ⟨0, 53205988779434476509855150657360132267438221853800843304067979220887904017715,
       53205988779434476509855150657360132267438221853800843304067979220887904017715, 0⟩
      (List.replicate 64 0) =
      ⟨0, 41007785953323343041294774693608425675539473721669504548326097504509847735939,
       41007785953323343041294774693608425675539473721669504548326097504509847735939, 0⟩ := by
    decide
  have c3 : List.foldl (edStep edBase)
      ⟨0, 41007785953323343041294774693608425675539473721669504548326097504509847735939,
       41007785953323343041294774693608425675539473721669504548326097504509847735939, 0⟩
      (List.replicate 64 0) =
      ⟨0, 40768376038531926896586520045959624300241284395032680194332152878604143846570,
       40768376038531926896586520045959624300241284395032680194332152878604143846570, 0⟩ := by
    decide
  have c4 : List.foldl (edStep edBase)
      ⟨0, 40768376038531926896586520045959624300241284395032680194332152878604143846570,
       40768376038531926896586520045959624300241284395032680194332152878604143846570, 0⟩
      (List.replicate 64 0) =
      ⟨0, 48557712614250348024794459820446410006966221879411492425598541301221093097036,
       48557712614250348024794459820446410006966221879411492425598541301221093097036, 0⟩ := by
    decide
  have h4 : edSmul 0 edBase =
      ⟨0, 48557712614250348024794459820446410006966221879411492425598541301221093097036,
       48557712614250348024794459820446410006966221879411492425598541301221093097036, 0⟩ := by
    unfold edSmul
    rw [hb0, List.foldl_append, List.foldl_append, List.foldl_append, c1, c2, c3, c4]
  have hbK : bitsBE 256 1775163828238128115226074216510484240294913985261291006658506159022596958963 =
      bitsKa ++ (bitsKb ++ (bitsKc ++ bitsKd)) := by
    decide
  have d1 : List.foldl (edStep ⟨0, 1, 1, 0⟩) edId bitsKa =
      ⟨0, 20892645173469882812447053412896972898572669191605244533381583651765701440347,
       20892645173469882812447053412896972898572669191605244533381583651765701440347, 0⟩ := by
    decide
  have d2 : List.foldl (edStep ⟨0, 1, 1, 0⟩)
      ⟨0, 20892645173469882812447053412896972898572669191605244533381583651765701440347,
       20892645173469882812447053412896972898572669191605244533381583651765701440347, 0⟩ bitsKb =
      ⟨0, 56581101745982929008246303971521843115419958952581510454851753719638526053209,
       56581101745982929008246303971521843115419958952581510454851753719638526053209, 0⟩ := by
    decide
  have d3 : List.foldl (edStep ⟨0, 1, 1, 0⟩)
      ⟨0, 56581101745982929008246303971521843115419958952581510454851753719638526053209,
       56581101745982929008246303971521843115419958952581510454851753719638526053209, 0⟩ bitsKc =
      ⟨0, 43003857148769715637983433087236145947939651961973599748804642590192715746888,
       43003857148769715637983433087236145947939651961973599748804642590192715746888, 0⟩ := by
    decide
  have d4 : List.foldl (edStep ⟨0, 1, 1, 0⟩)
      ⟨0, 43003857148769715637983433087236145947939651961973599748804642590192715746888,
       43003857148769715637983433087236145947939651961973599748804642590192715746888, 0⟩ bitsKd =
      ⟨0, 11498610999079850060890226368095439896041116347587165186885039089096171968791,
       11498610999079850060890226368095439896041116347587165186885039089096171968791, 0⟩ := by
    decide
  have h5 : edSmul 1775163828238128115226074216510484240294913985261291006658506159022596958963
      ⟨0, 1, 1, 0⟩ =
      ⟨0, 11498610999079850060890226368095439896041116347587165186885039089096171968791,
       11498610999079850060890226368095439896041116347587165186885039089096171968791, 0⟩ := by
    unfold edSmul
    rw [hbK, List.foldl_append, List.foldl_append, List.foldl_append, d1, d2, d3, d4]
  have h1 : (List.replicate 64 0).take 32 = List.replicate 32 (0 : Nat) := by decide
  have h2 : leNat ((List.replicate 64 0).drop 32) = 0 := by decide
  have h3 : leNat (sha512 (List.replicate 32 (0 : Nat) ++ (1 :: List.replicate 31 0) ++ [])) % edL =
      1775163828238128115226074216510484240294913985261291006658506159022596958963 := by
    decide
  have hneg : edNeg ⟨0, 1, 1, 0⟩ = (⟨0, 1, 1, 0⟩ : EdPoint) := by decide
  have h6 : edCompress (edAdd
      ⟨0, 48557712614250348024794459820446410006966221879411492425598541301221093097036,
       48557712614250348024794459820446410006966221879411492425598541301221093097036, 0⟩
      ⟨0, 11498610999079850060890226368095439896041116347587165186885039089096171968791,
       11498610999079850060890226368095439896041116347587165186885039089096171968791, 0⟩) ≠
      List.replicate 32 (0 : Nat) := by
    decide
  simp only [edVerifyCheck, decide_eq_false_iff_not]
  rw [h1, h2, h3, hneg, h4, h5]
  exact h6

/-- Concrete instances of the C7 taxonomy: y = 2 encodes no curve point;
an s half with its top three bits set is rejected as a malformed
signature; the all-zero signature is well-formed but does not verify, so
the call returns ok false. -/
theorem ed25519_verify_error_taxonomy_witness :
    ed25519_verify (leBytes 32 2) [] (List.replicate 64 0) =
      .error ("Invalid public key") ∧
    ed25519_verify (1 :: List.replicate 31 0) [] (List.replicate 63 0 ++ [255]) =
      .error ("Invalid signature") ∧
    ed25519_verify (1 :: List.replicate 31 0) [] (List.replicate 64 0) = .ok false := by
  refine ⟨?_, ?_, ?_⟩
  · exact (ed25519_verify_error_taxonomy _ _ _ (by decide) (by decide)).1 (by decide)
  · exact (ed25519_verify_error_taxonomy _ _ _ (by decide) (by decide)).2.1
      ⟨0, 1, 1, 0⟩ (by decide) (by decide)
  · exact (ed25519_verify_error_taxonomy _ _ _ (by decide) (by decide)).2.2
      ⟨0, 1, 1, 0⟩ (by decide) (by decide) edVerifyCheck_concrete_false

/-- Claim C9 counterexample: two calls that differ only in the info
argument need not return different outputs; at output length 0 both
return the empty buffer. -/
theorem hkdf_info_collision_at_zero_length :
    hkdf_expand [] [] [0] 0 = hkdf_expand [] [] [1] 0 ∧ ([0] : List Nat) ≠ [1] :=
  ⟨rfl, by decide⟩

/-- Claim C9 (amended): hkdf_expand is deterministic - equal argument
lists give equal results, there being no hidden state or randomness -
and varying info alone can change the output, witnessed at output
length 32. -/
theorem hkdf_deterministic_and_info_sensitive :
    (∀ s i inf l s2 i2 inf2 l2, s = s2 → i = i2 → inf = inf2 → l = l2 →
      hkdf_expand s i inf l = hkdf_expand s2 i2 inf2 l2) ∧
    hkdf_expand [] [] [0] 32 ≠ hkdf_expand [] [] [1] 32 := by
  constructor
  · intro s i inf l s2 i2 inf2 l2 h1 h2 h3 h4
    rw [h1, h2, h3, h4]
  · decide

/-- Concrete instance of the C9 determinism statement. -/
theorem hkdf_deterministic_witness :
    hkdf_expand [1] [2] [3] 5 = hkdf_expand [1] [2] [3] 5 :=
  hkdf_deterministic_and_info_sensitive.1 [1] [2] [3] 5 [1] [2] [3] 5 rfl rfl rfl rfl

/-- Claim C10: the ciphertext aes_encrypt returns is independent of the
aad argument - the aad local is read from the JS buffer but never
passed to the cipher, so the result is definitionally the same for any
two aad buffers. -/
theorem aes_encrypt_independent_of_aad (key nonce plaintext aad1 aad2 : List Nat) :
    aes_encrypt key nonce plaintext aad1 = aes_encrypt key nonce plaintext aad2 := rfl
